import Mathlib

/-!
Verification of the monkey-wrench core against its specification.

The development shallowly embeds, in Lean, the parts of the repository that
the specification's claims are about:

* `FilesIntegrityValidator` from `src/monkey_wrench/input_output/_models.py`
  (fields `nominal_size`, `tolerance`, `transform_function`, `reference`,
  methods `is_corrupted`, `find_corrupted_files`, `transform_files`,
  `find_missing_files`, `verify`).  Python file paths and reference items are
  modelled by an arbitrary type `α` with decidable equality; the file system
  is an explicit size function `α → ℕ` (standing for `os.path.getsize`);
  Python's exact `/` on integers is modelled by rational division; fallible
  Python code (raising `ZeroDivisionError` / `TypeError`) returns `Except`.

* The polling loop of `EumetsatAPI.fetch_product` and the batch list
  comprehension of `EumetsatAPI.fetch_products` from
  `src/monkey_wrench/query/_api.py`.  The remote job is modelled by the
  stream of status strings the loop would observe, one per iteration; the
  loop itself is fuel-indexed, a result of `none` meaning that it has not
  exited within the given number of iterations.

* The time-window batcher (`EumetsatAPI.query` / `query_in_batches`), whose
  underlying range check and window generation live in modules that are not
  part of the sources at hand; it is modelled from the specification.
-/

/-- Decidable equality of `Except` values, used to evaluate the embedding on
concrete inputs. -/
instance {ε β : Type} [DecidableEq ε] [DecidableEq β] : DecidableEq (Except ε β) :=
  fun a b =>
    match a, b with
    | .error x, .error y =>
      match decEq x y with
      | .isTrue h => .isTrue (congrArg Except.error h)
      | .isFalse h => .isFalse (fun hc => h (Except.noConfusion hc id))
    | .error _, .ok _ => .isFalse (fun hc => Except.noConfusion hc)
    | .ok _, .error _ => .isFalse (fun hc => Except.noConfusion hc)
    | .ok x, .ok y =>
      match decEq x y with
      | .isTrue h => .isTrue (congrArg Except.ok h)
      | .isFalse h => .isFalse (fun hc => h (Except.noConfusion hc id))

namespace MonkeyWrench

/-- Errors a Python-level evaluation can raise in the embedded fragment. -/
inductive PyError where
  | zeroDivisionError
  | typeError
  deriving DecidableEq, Repr

/-- Embedding of the `FilesIntegrityValidator` pydantic model
(`src/monkey_wrench/input_output/_models.py`, lines 256-315).

`nominal_size : NonNegativeInt | None` becomes `Option ℕ`;
`tolerance : NonNegativeFloat` becomes `ℚ` (non-negativity is a construction
constraint stated as a hypothesis where a claim needs it);
`transform_function` and `reference` keep their optional shape.  Since Python
is dynamically typed, candidate paths, transformed objects and reference
items all live in the single carrier `α`. -/
structure FilesIntegrityValidator (α : Type) where
  nominal_size : Option ℕ
  tolerance : ℚ
  transform_function : Option (α → α)
  reference : Option (List α)

variable {α : Type}

/-- Embedding of `FilesIntegrityValidator.is_corrupted`:
`abs(1 - file_size / self.nominal_size) > self.tolerance`.
Python raises `TypeError` if `nominal_size` is `None` and
`ZeroDivisionError` if it is `0`. -/
def is_corrupted (v : FilesIntegrityValidator α) (file_size : ℕ) :
    Except PyError Bool :=
  match v.nominal_size with
  | none => .error .typeError
  | some n =>
    if n = 0 then .error .zeroDivisionError
    else .ok (decide (|1 - (file_size : ℚ) / (n : ℚ)| > v.tolerance))

/-- Embedding of the set comprehension inside
`FilesIntegrityValidator.find_corrupted_files`:
`{fp for fp, fs in zip(filepaths, file_sizes, strict=True) if self.is_corrupted(fs)}`.
The sizes are produced by `self.run(os.path.getsize, filepaths)`, a
parallel map that preserves the input order (position-paired zipping), so it
is the pointwise application of the ambient `size` function.  Elements are
examined left to right and the first raised error aborts the comprehension,
as in Python. -/
def corrupted_filter [DecidableEq α] (v : FilesIntegrityValidator α)
    (size : α → ℕ) : List α → Except PyError (Finset α)
  | [] => .ok ∅
  | f :: rest =>
    match is_corrupted v (size f) with
    | .error e => .error e
    | .ok b =>
      match corrupted_filter v size rest with
      | .error e => .error e
      | .ok s => .ok (if b then insert f s else s)

/-- Embedding of `FilesIntegrityValidator.find_corrupted_files`:
returns `None` when `self.nominal_size is None`, otherwise the set of
candidates whose size is out of tolerance. -/
def find_corrupted_files [DecidableEq α] (v : FilesIntegrityValidator α)
    (size : α → ℕ) (filepaths : List α) : Except PyError (Option (Finset α)) :=
  match v.nominal_size with
  | none => .ok none
  | some _ =>
    match corrupted_filter v size filepaths with
    | .error e => .error e
    | .ok s => .ok (some s)

/-- Embedding of `FilesIntegrityValidator.transform_files`:
`{self.transform_function(f) for f in filepaths} if self.transform_function else set(filepaths)`. -/
def transform_files [DecidableEq α] (v : FilesIntegrityValidator α)
    (filepaths : List α) : Finset α :=
  match v.transform_function with
  | some g => (filepaths.map g).toFinset
  | none => filepaths.toFinset

/-- Embedding of `FilesIntegrityValidator.find_missing_files`:
`set(self.reference) - self.transform_files(filepaths) if self.reference else None`.
Python truthiness: `if self.reference` is false both for `None` and for an
empty reference collection, so both return `None`. -/
def find_missing_files [DecidableEq α] (v : FilesIntegrityValidator α)
    (filepaths : List α) : Option (Finset α) :=
  match v.reference with
  | none => none
  | some [] => none
  | some r => some (r.toFinset \ transform_files v filepaths)

/-- Embedding of `FilesIntegrityValidator.verify`:
`return self.find_missing_files(filepaths), self.find_corrupted_files(filepaths)`.
Only the corrupted half can raise. -/
def verify [DecidableEq α] (v : FilesIntegrityValidator α) (size : α → ℕ)
    (filepaths : List α) :
    Except PyError (Option (Finset α) × Option (Finset α)) :=
  match find_corrupted_files v size filepaths with
  | .error e => .error e
  | .ok c => .ok (find_missing_files v filepaths, c)

/-- Two successive calls of `verify` on the same validator and the same
candidate list, as a pair of results. -/
def verify_twice [DecidableEq α] (v : FilesIntegrityValidator α)
    (size : α → ℕ) (filepaths : List α) :=
  (verify v size filepaths, verify v size filepaths)

/-- Truthiness of a Python optional collection: `None` and the empty
collection are falsy, everything else is truthy. -/
def py_truthy : Option (List α) → Bool
  | none => false
  | some l => !l.isEmpty

/-! Embedding of the polling loop of `EumetsatAPI.fetch_product`
(`src/monkey_wrench/query/_api.py`, lines 248-287). -/

/-- Character-list matching: the pattern is an initial segment of the text. -/
def chars_match : List Char → List Char → Bool
  | [], _ => true
  | _ :: _, [] => false
  | a :: as, b :: bs => a == b && chars_match as bs

/-- Character-list substring containment. -/
def chars_contain (pat : List Char) : List Char → Bool
  | [] => pat.isEmpty
  | c :: rest => chars_match pat (c :: rest) || chars_contain pat rest

/-- Embedding of the Python substring test `pat in s`. -/
def str_contains (pat s : String) : Bool :=
  chars_contain pat.data s.data

/-- Abstract job states of the poller (`Queued`/`Running` are collapsed into
the single waiting behaviour the loop gives them, `unhandled` is a status
string that matches none of the three branches of the loop). -/
inductive JobState where
  | done
  | error
  | wait
  | unhandled
  deriving DecidableEq, Repr

/-- The literal status list of the error branch of `fetch_product`:
`customisation.status in ["ERROR", "FAILED", "DELETED", "KILLED", "INACTIVE"]`. -/
def error_statuses : List String :=
  ["ERROR", "FAILED", "DELETED", "KILLED", "INACTIVE"]

/-- The literal status list of the waiting branch of `fetch_product`:
`customisation.status in ["QUEUED", "RUNNING"]`. -/
def wait_statuses : List String :=
  ["QUEUED", "RUNNING"]

/-- Classification of one observed status string, in the order the branches
of the loop in `fetch_product` test it: first the substring test
`"DONE" in customisation.status`, then membership in the error list, then
membership in the waiting list; any other value falls through every branch. -/
def classify_status (s : String) : JobState :=
  if str_contains "DONE" s then .done
  else if s ∈ error_statuses then .error
  else if s ∈ wait_statuses then .wait
  else .unhandled

/-- Fuel-indexed run of the `while True` loop of `fetch_product`.
`status j` is the status string the loop would observe at its `j`-th poll,
`out` the name of the streamed output file.  The value is
`(result, writes, sleeps)`: `result = none` when the loop has not exited
within `fuel` iterations, `some (some out)` for the `DONE` return (one file
write), `some none` for the error return (no write); `sleeps` counts the
`time.sleep` calls performed (only the `QUEUED`/`RUNNING` branch sleeps —
an unhandled status re-polls immediately). -/
def fetch_product_loop (status : ℕ → String) (out : String) :
    ℕ → ℕ → Option (Option String) × ℕ × ℕ
  | 0, _ => (none, 0, 0)
  | fuel + 1, i =>
    match classify_status (status i) with
    | .done => (some (some out), 1, 0)
    | .error => (some none, 0, 0)
    | .wait =>
      match fetch_product_loop status out fuel (i + 1) with
      | (r, w, sl) => (r, w, sl + 1)
    | .unhandled => fetch_product_loop status out fuel (i + 1)

/-- Status stream drawn from a finite script of statuses (one per poll). -/
def status_of_list (l : List String) (i : ℕ) : String :=
  l.getD i ""

/-- Embedding of the batch list comprehension of `EumetsatAPI.fetch_products`:
`[self.fetch_product(product, chain, output_directory, sleep_time) for product in search_results]`.
Each item carries its own status stream, output name and fuel; items are
fetched one after the other, each exactly once, in the input order. -/
def fetch_products {ι : Type} (status : ι → ℕ → String) (out : ι → String)
    (fuel : ι → ℕ) (items : List ι) : List (Option (Option String)) :=
  items.map (fun p => (fetch_product_loop (status p) (out p) (fuel p) 0).1)

/-! Time-window batcher. -/

/-- Error raised for a malformed time range. -/
inductive QueryError where
  | invalidRange
  deriving DecidableEq, Repr

/-- Modelled from the spec: the window generation of the time-window batcher
(`TimeWindowBatcher`, realized by `EumetsatAPI.query` /
`EumetsatAPI.query_in_batches` on top of `monkey_wrench.date_time` and
`monkey_wrench.query._base`, which are not among the sources at hand).
Per spec section 4.1, consecutive windows of width `w` tile `[s, e)`, the
final window clipped to `e`; `s = e` yields zero windows.  Timestamps are
modelled as natural numbers. -/
def tile_go (w : ℕ) : ℕ → ℕ → ℕ → List (ℕ × ℕ)
  | 0, _, _ => []
  | fuel + 1, s, e =>
    if s < e ∧ 0 < w then (s, min (s + w) e) :: tile_go w fuel (s + w) e
    else []

/-- Modelled from the spec: the tiling entry point; since each produced
window advances the start point by `w ≥ 1`, a fuel of `e - s` iterations is
enough to exhaust the range. -/
def tile_windows (w s e : ℕ) : List (ℕ × ℕ) :=
  tile_go w (e - s) s e

/-- Modelled from the spec: the range check and batch production of
`query_in_batches` (spec sections 4.1 and 8): `start > end` fails with
`InvalidRangeError` before any window is produced; otherwise the covering
windows of `[start, end)` are produced (zero of them when `start = end`). -/
def query_in_batches (s e w : ℕ) : Except QueryError (List (ℕ × ℕ)) :=
  if e < s then .error .invalidRange else .ok (tile_windows w s e)

/-! Concrete instances used to evaluate the embedding. -/

/-- Validator with `nominal_size = 1000` and `tolerance = 0.01`, the
configuration of the specification's worked example. -/
def v1000 : FilesIntegrityValidator ℕ :=
  ⟨some 1000, 1 / 100, none, none⟩

/-- Validator whose reference was supplied but is the empty collection. -/
def v_empty_ref : FilesIntegrityValidator ℕ :=
  ⟨none, 0, none, some []⟩

/-- Validator with an empty reference and a supplied nominal size. -/
def v_empty_ref_sized : FilesIntegrityValidator ℕ :=
  ⟨some 5, 0, none, some []⟩

/-- Validator with `nominal_size = 0`. -/
def v_zero : FilesIntegrityValidator ℕ :=
  ⟨some 0, 0, none, none⟩

/-- Validator with a non-empty reference, used to exercise `verify`. -/
def v_ref12 : FilesIntegrityValidator ℕ :=
  ⟨some 2, 0, none, some [1]⟩

/-- A status stream that answers `"DONE"` to every poll. -/
def status_done (_ : ℕ) (_ : ℕ) : String :=
  "DONE"

/-- A constant output-file name per item. -/
def out_name (_ : ℕ) : String :=
  "out.nc"

/-- One unit of fuel per item. -/
def one_fuel (_ : ℕ) : ℕ :=
  1

/-! Helper lemmas about the integrity validator. -/

theorem is_corrupted_of_pos {v : FilesIntegrityValidator α} {n : ℕ}
    (hv : v.nominal_size = some n) (hn : n ≠ 0) (fs : ℕ) :
    is_corrupted v fs = .ok (decide (|1 - (fs : ℚ) / (n : ℚ)| > v.tolerance)) := by
  simp [is_corrupted, hv, hn]

theorem is_corrupted_of_zero {v : FilesIntegrityValidator α}
    (hv : v.nominal_size = some 0) (fs : ℕ) :
    is_corrupted v fs = .error .zeroDivisionError := by
  simp [is_corrupted, hv]

theorem corrupted_filter_of_pos [DecidableEq α] {v : FilesIntegrityValidator α}
    {n : ℕ} (hv : v.nominal_size = some n) (hn : n ≠ 0) (size : α → ℕ)
    (l : List α) :
    corrupted_filter v size l =
      .ok (l.toFinset.filter (fun f => v.tolerance < |1 - (size f : ℚ) / (n : ℚ)|)) := by
  induction l with
  | nil => simp [corrupted_filter]
  | cons a l ih =>
    rw [corrupted_filter, is_corrupted_of_pos hv hn, ih]
    by_cases hp : v.tolerance < |1 - (size a : ℚ) / (n : ℚ)|
    · simp [hp, Finset.filter_insert]
    · simp [hp, Finset.filter_insert]

theorem corrupted_filter_of_zero [DecidableEq α] {v : FilesIntegrityValidator α}
    (hv : v.nominal_size = some 0) (size : α → ℕ) (a : α) (l : List α) :
    corrupted_filter v size (a :: l) = .error .zeroDivisionError := by
  rw [corrupted_filter, is_corrupted_of_zero hv]

theorem find_corrupted_files_of_none [DecidableEq α]
    {v : FilesIntegrityValidator α} (hv : v.nominal_size = none)
    (size : α → ℕ) (l : List α) :
    find_corrupted_files v size l = .ok none := by
  simp [find_corrupted_files, hv]

theorem find_corrupted_files_of_pos [DecidableEq α]
    {v : FilesIntegrityValidator α} {n : ℕ} (hv : v.nominal_size = some n)
    (hn : n ≠ 0) (size : α → ℕ) (l : List α) :
    find_corrupted_files v size l =
      .ok (some (l.toFinset.filter
        (fun f => v.tolerance < |1 - (size f : ℚ) / (n : ℚ)|))) := by
  rw [find_corrupted_files, hv, corrupted_filter_of_pos hv hn]

theorem find_corrupted_files_of_zero [DecidableEq α]
    {v : FilesIntegrityValidator α} (hv : v.nominal_size = some 0)
    (size : α → ℕ) {l : List α} (hl : l ≠ []) :
    find_corrupted_files v size l = .error .zeroDivisionError := by
  cases l with
  | nil => exact absurd rfl hl
  | cons a l => rw [find_corrupted_files, hv, corrupted_filter_of_zero hv]

theorem transform_files_nil [DecidableEq α] (v : FilesIntegrityValidator α) :
    transform_files v [] = ∅ := by
  cases htf : v.transform_function <;> simp [transform_files, htf]

theorem find_missing_files_of_cons [DecidableEq α]
    {v : FilesIntegrityValidator α} {r : List α} (hr : v.reference = some r)
    (hne : r ≠ []) (l : List α) :
    find_missing_files v l = some (r.toFinset \ transform_files v l) := by
  cases r with
  | nil => exact absurd rfl hne
  | cons a r => rw [find_missing_files, hr]

theorem find_missing_files_of_none [DecidableEq α]
    {v : FilesIntegrityValidator α} (hr : v.reference = none) (l : List α) :
    find_missing_files v l = none := by
  rw [find_missing_files, hr]

theorem find_missing_files_of_empty [DecidableEq α]
    {v : FilesIntegrityValidator α} (hr : v.reference = some []) (l : List α) :
    find_missing_files v l = none := by
  rw [find_missing_files, hr]

theorem transform_files_perm [DecidableEq α] (v : FilesIntegrityValidator α)
    {l l2 : List α} (h : l.Perm l2) :
    transform_files v l = transform_files v l2 := by
  cases htf : v.transform_function with
  | none => simp [transform_files, htf, List.toFinset_eq_of_perm _ _ h]
  | some g => simp [transform_files, htf, List.toFinset_eq_of_perm _ _ (h.map g)]

theorem find_missing_files_perm [DecidableEq α] (v : FilesIntegrityValidator α)
    {l l2 : List α} (h : l.Perm l2) :
    find_missing_files v l = find_missing_files v l2 := by
  cases hr : v.reference with
  | none => rw [find_missing_files_of_none hr, find_missing_files_of_none hr]
  | some r =>
    cases r with
    | nil => rw [find_missing_files_of_empty hr, find_missing_files_of_empty hr]
    | cons a r =>
      rw [find_missing_files_of_cons hr (by simp), find_missing_files_of_cons hr (by simp),
        transform_files_perm v h]

theorem find_corrupted_files_perm [DecidableEq α]
    (v : FilesIntegrityValidator α) (size : α → ℕ) {l l2 : List α}
    (h : l.Perm l2) :
    find_corrupted_files v size l = find_corrupted_files v size l2 := by
  cases hv : v.nominal_size with
  | none => rw [find_corrupted_files_of_none hv, find_corrupted_files_of_none hv]
  | some n =>
    cases Nat.eq_zero_or_pos n with
    | inl h0 =>
      subst h0
      cases l with
      | nil =>
        have : l2 = [] := h.symm.eq_nil
        subst this
        rfl
      | cons a l =>
        cases l2 with
        | nil => exact absurd h.eq_nil (by simp)
        | cons b l2 =>
          rw [find_corrupted_files_of_zero hv size (by simp),
            find_corrupted_files_of_zero hv size (by simp)]
    | inr hpos =>
      rw [find_corrupted_files_of_pos hv (Nat.pos_iff_ne_zero.mp hpos),
        find_corrupted_files_of_pos hv (Nat.pos_iff_ne_zero.mp hpos),
        List.toFinset_eq_of_perm _ _ h]

theorem verify_perm [DecidableEq α] (v : FilesIntegrityValidator α)
    (size : α → ℕ) {l l2 : List α} (h : l.Perm l2) :
    verify v size l = verify v size l2 := by
  rw [verify, verify, find_corrupted_files_perm v size h,
    find_missing_files_perm v h]

theorem size_1020_out_of_tolerance :
    (1 / 100 : ℚ) < |1 - (1020 : ℚ) / 1000| := by
  rw [lt_abs]
  norm_num

theorem size_1005_within_tolerance :
    ¬((1 / 100 : ℚ) < |1 - (1005 : ℚ) / 1000|) := by
  rw [not_lt, abs_le]
  constructor <;> norm_num

/-! The claims. -/

/-- C1: for every validator with a supplied (positive) nominal size `n` and
tolerance `t ≥ 0`, `find_corrupted_files` returns exactly the set of
candidates `f` with `|1 - size(f)/n| > t`; with `n = 1000`, `t = 0.01` a
file of size `1020` is corrupted and one of size `1005` is not; with
`nominal_size = None` the result is `None` regardless of the candidates.
(For `n = 0` the code raises `ZeroDivisionError` instead of returning a
set; see the nominal-zero theorem.) -/
theorem corrupted_files_characterization :
    (∀ (β : Type) [DecidableEq β] (v : FilesIntegrityValidator β) (n : ℕ)
        (size : β → ℕ) (filepaths : List β),
        v.nominal_size = some n → 0 < n → 0 ≤ v.tolerance →
        find_corrupted_files v size filepaths =
          .ok (some (filepaths.toFinset.filter
            (fun f => v.tolerance < |1 - (size f : ℚ) / (n : ℚ)|))))
    ∧ find_corrupted_files v1000 (fun _ => 1020) [0] = .ok (some {0})
    ∧ find_corrupted_files v1000 (fun _ => 1005) [0] = .ok (some ∅)
    ∧ (∀ (β : Type) [DecidableEq β] (v : FilesIntegrityValidator β)
        (size : β → ℕ) (filepaths : List β),
        v.nominal_size = none →
        find_corrupted_files v size filepaths = .ok none) := by
  refine ⟨?_, ?_, ?_, ?_⟩
  · intro β _ v n size filepaths hv hn _
    exact find_corrupted_files_of_pos hv (Nat.pos_iff_ne_zero.mp hn) size filepaths
  · rw [find_corrupted_files_of_pos (v := v1000) (n := 1000) rfl (by norm_num)]
    simp only [v1000, Finset.filter_singleton, List.toFinset_cons,
      List.toFinset_nil, insert_emptyc_eq, Nat.cast_ofNat]
    rw [if_pos]
    exact size_1020_out_of_tolerance
  · rw [find_corrupted_files_of_pos (v := v1000) (n := 1000) rfl (by norm_num)]
    simp only [v1000, Finset.filter_singleton, List.toFinset_cons,
      List.toFinset_nil, insert_emptyc_eq, Nat.cast_ofNat]
    rw [if_neg]
    exact size_1005_within_tolerance
  · intro β _ v size filepaths hv
    exact find_corrupted_files_of_none hv size filepaths

/-- Witness for the corrupted-files characterization at a concrete input. -/
theorem corrupted_files_characterization_witness :
    find_corrupted_files v1000 (fun _ => 1020) [0] =
      .ok (some (([0] : List ℕ).toFinset.filter
        (fun f => v1000.tolerance <
          |1 - (((fun _ => 1020) f : ℕ) : ℚ) / ((1000 : ℕ) : ℚ)|))) :=
  corrupted_files_characterization.1 ℕ v1000 1000 (fun _ => 1020) [0] rfl
    (by norm_num) (by norm_num [v1000])

/-- C2 (amended): for every validator whose reference is supplied and
non-empty, `find_missing_files` is exactly the reference minus the
transformed candidates (identity transform when none is given), its result
is always a subset of the reference (extra candidates are never flagged),
and an absent reference gives `None`.  An empty supplied reference also
gives `None` because of Python truthiness, which is what the amendment
adds. -/
theorem missing_files_characterization :
    (∀ (β : Type) [DecidableEq β] (v : FilesIntegrityValidator β)
        (r filepaths : List β), v.reference = some r → r ≠ [] →
        find_missing_files v filepaths =
          some (r.toFinset \ transform_files v filepaths))
    ∧ (∀ (β : Type) [DecidableEq β] (v : FilesIntegrityValidator β)
        (filepaths : List β), v.transform_function = none →
        transform_files v filepaths = filepaths.toFinset)
    ∧ (∀ (β : Type) [DecidableEq β] (v : FilesIntegrityValidator β)
        (g : β → β) (filepaths : List β), v.transform_function = some g →
        transform_files v filepaths = (filepaths.map g).toFinset)
    ∧ (∀ (β : Type) [DecidableEq β] (v : FilesIntegrityValidator β)
        (r filepaths : List β) (s : Finset β), v.reference = some r →
        find_missing_files v filepaths = some s → s ⊆ r.toFinset)
    ∧ (∀ (β : Type) [DecidableEq β] (v : FilesIntegrityValidator β)
        (filepaths : List β), v.reference = none →
        find_missing_files v filepaths = none) := by
  refine ⟨?_, ?_, ?_, ?_, ?_⟩
  · intro β _ v r filepaths hr hne
    exact find_missing_files_of_cons hr hne filepaths
  · intro β _ v filepaths htf
    simp [transform_files, htf]
  · intro β _ v g filepaths htf
    simp [transform_files, htf]
  · intro β _ v r filepaths s hr hs
    cases r with
    | nil => rw [find_missing_files_of_empty hr] at hs; cases hs
    | cons a r =>
      rw [find_missing_files_of_cons hr (by simp)] at hs
      cases hs
      exact Finset.sdiff_subset
  · intro β _ v filepaths hr
    exact find_missing_files_of_none hr filepaths

/-- Witness for the missing-files characterization at a concrete input. -/
theorem missing_files_characterization_witness :
    find_missing_files v_ref12 [2] =
      some (([1] : List ℕ).toFinset \ transform_files v_ref12 [2]) :=
  missing_files_characterization.1 ℕ v_ref12 [1] [2] rfl (by decide)

/-- C2 counterexample: a validator whose reference was supplied but is the
empty collection returns `None` from `find_missing_files`, not the set
difference (which would be the empty set) that the claim requires for every
supplied reference. -/
theorem missing_files_empty_reference_cex :
    v_empty_ref.reference = some [] ∧
    find_missing_files v_empty_ref ([] : List ℕ) = none ∧
    find_missing_files v_empty_ref ([] : List ℕ) ≠
      some (([] : List ℕ).toFinset \ transform_files v_empty_ref []) := by
  exact ⟨rfl, rfl, by decide⟩

/-- C3 (amended): whenever `verify` returns a result at all, its missing
component is a set exactly when the reference was supplied and non-empty
(Python truthiness collapses a supplied empty reference into `None`), and
its corrupted component is a set exactly when a nominal size was supplied;
with an empty candidate list the corrupted component is the empty set and
the missing component is the whole reference. -/
theorem verify_null_signalling :
    (∀ (β : Type) [DecidableEq β] (v : FilesIntegrityValidator β)
        (size : β → ℕ) (filepaths : List β) (m c : Option (Finset β)),
        verify v size filepaths = .ok (m, c) →
        ((m ≠ none ↔ py_truthy v.reference = true) ∧
          (c ≠ none ↔ v.nominal_size ≠ none)))
    ∧ (∀ (β : Type) [DecidableEq β] (v : FilesIntegrityValidator β)
        (size : β → ℕ) (n : ℕ), v.nominal_size = some n →
        find_corrupted_files v size [] = .ok (some ∅))
    ∧ (∀ (β : Type) [DecidableEq β] (v : FilesIntegrityValidator β)
        (r : List β), v.reference = some r → r ≠ [] →
        find_missing_files v [] = some r.toFinset) := by
  refine ⟨?_, ?_, ?_⟩
  · intro β _ v size filepaths m c h
    rw [verify] at h
    cases hfc : find_corrupted_files v size filepaths with
    | error e => rw [hfc] at h; simp at h
    | ok c2 =>
      rw [hfc] at h
      simp only [Except.ok.injEq, Prod.mk.injEq] at h
      obtain ⟨hm, hc⟩ := h
      subst hm
      subst hc
      constructor
      · cases hr : v.reference with
        | none => simp [find_missing_files_of_none hr, py_truthy]
        | some r =>
          cases r with
          | nil => simp [find_missing_files_of_empty hr, py_truthy]
          | cons a r =>
            simp [find_missing_files_of_cons hr (by simp), py_truthy]
      · cases hv : v.nominal_size with
        | none =>
          rw [find_corrupted_files_of_none hv] at hfc
          cases hfc
          simp
        | some n =>
          rw [find_corrupted_files] at hfc
          rw [hv] at hfc
          cases hcf : corrupted_filter v size filepaths with
          | error e => rw [hcf] at hfc; cases hfc
          | ok s =>
            rw [hcf] at hfc
            cases hfc
            simp
  · intro β _ v size n hv
    rw [find_corrupted_files, hv]
    rfl
  · intro β _ v r hr hne
    rw [find_missing_files_of_cons hr hne, transform_files_nil]
    simp

/-- Witness for the null-signalling theorem at a concrete input. -/
theorem verify_null_signalling_witness :
    (some ({1} : Finset ℕ) ≠ none ↔ py_truthy v_ref12.reference = true) ∧
    (some (∅ : Finset ℕ) ≠ none ↔ v_ref12.nominal_size ≠ none) :=
  verify_null_signalling.1 ℕ v_ref12 (fun _ => 2) [] (some {1}) (some ∅)
    (by decide)

/-- C3 counterexample: a validator with a supplied reference (the empty
collection) and a supplied nominal size, on an empty candidate list,
returns `None` in the missing component, so a supplied-but-empty reference
is not distinguishable from an absent one. -/
theorem verify_empty_reference_cex :
    v_empty_ref_sized.reference = some [] ∧
    verify v_empty_ref_sized (fun _ => 0) ([] : List ℕ) =
      .ok (none, some ∅) := by
  exact ⟨rfl, by decide⟩

/-- C8: `verify` is a pure function of its inputs: two successive calls on
the same validator, size function and candidate list give identical
results, and the result is even invariant under re-listing the same
candidate collection in any other order (nothing is mutated in the
embedding; both halves consume the same input). -/
theorem verify_pure :
    ∀ (β : Type) [DecidableEq β] (v : FilesIntegrityValidator β)
      (size : β → ℕ) (l l2 : List β), l.Perm l2 →
      (verify_twice v size l).1 = (verify_twice v size l).2 ∧
      verify v size l = verify v size l2 := by
  intro β _ v size l l2 h
  exact ⟨rfl, verify_perm v size h⟩

/-- Witness for purity of `verify` at a concrete input. -/
theorem verify_pure_witness :
    (verify_twice v_ref12 (fun x => x) [1, 2]).1 =
      (verify_twice v_ref12 (fun x => x) [1, 2]).2 ∧
    verify v_ref12 (fun x => x) [1, 2] = verify v_ref12 (fun x => x) [2, 1] :=
  verify_pure ℕ v_ref12 (fun x => x) [1, 2] [2, 1] (List.Perm.swap 2 1 [])

/-- C9: the validator type admits `nominal_size = 0`; with `nominal_size =
0` and a non-empty candidate list both `find_corrupted_files` and `verify`
raise `ZeroDivisionError` instead of returning a set, and the error branch
is avoided exactly when the nominal size is positive or absent. -/
theorem nominal_size_zero_division :
    (∀ n : ℕ, ∃ v : FilesIntegrityValidator ℕ,
        v.nominal_size = some n ∧ 0 ≤ v.tolerance)
    ∧ (∀ (β : Type) [DecidableEq β] (v : FilesIntegrityValidator β)
        (size : β → ℕ) (filepaths : List β),
        v.nominal_size = some 0 → filepaths ≠ [] →
        find_corrupted_files v size filepaths = .error .zeroDivisionError ∧
        verify v size filepaths = .error .zeroDivisionError)
    ∧ (∀ (β : Type) [DecidableEq β] (v : FilesIntegrityValidator β)
        (size : β → ℕ) (filepaths : List β) (n : ℕ),
        v.nominal_size = some n → 0 < n →
        ∃ s, find_corrupted_files v size filepaths = .ok (some s))
    ∧ (∀ (β : Type) [DecidableEq β] (v : FilesIntegrityValidator β)
        (size : β → ℕ) (filepaths : List β), v.nominal_size = none →
        find_corrupted_files v size filepaths = .ok none) := by
  refine ⟨?_, ?_, ?_, ?_⟩
  · intro n
    exact ⟨⟨some n, 0, none, none⟩, rfl, le_refl 0⟩
  · intro β _ v size filepaths hv hne
    have hfc := find_corrupted_files_of_zero hv size hne
    exact ⟨hfc, by rw [verify, hfc]⟩
  · intro β _ v size filepaths n hv hn
    exact ⟨_, find_corrupted_files_of_pos hv (Nat.pos_iff_ne_zero.mp hn) size filepaths⟩
  · intro β _ v size filepaths hv
    exact find_corrupted_files_of_none hv size filepaths

/-- Witness for the zero-division theorem at a concrete input. -/
theorem nominal_size_zero_division_witness :
    find_corrupted_files v_zero (fun _ => 7) [0] = .error .zeroDivisionError ∧
    verify v_zero (fun _ => 7) [0] = .error .zeroDivisionError :=
  nominal_size_zero_division.2.1 ℕ v_zero (fun _ => 7) [0] rfl (by decide)

/-- C4 (amended): every status string of the loop's permanent-failure list —
error, failed, killed, deleted, inactive — is classified as the terminal
`Error` state, upon which the call immediately returns `None` (no output
path, no file write), independently of the remaining fuel and of any later
status, so a single `Error` is final and the job is never retried within
the call.  The amendment replaces the claim's `cancelled` by the code's
`ERROR` literal. -/
theorem error_status_classification :
    (∀ s : String, s ∈ error_statuses → classify_status s = .error)
    ∧ (∀ (status : ℕ → String) (out : String) (fuel i : ℕ),
        classify_status (status i) = .error →
        fetch_product_loop status out (fuel + 1) i = (some none, 0, 0)) := by
  constructor
  · intro s hs
    simp only [error_statuses, List.mem_cons, List.not_mem_nil, or_false] at hs
    rcases hs with rfl | rfl | rfl | rfl | rfl <;> decide
  · intro status out fuel i h
    rw [fetch_product_loop, h]

/-- Witness for the error-status theorem at a concrete input. -/
theorem error_status_classification_witness :
    fetch_product_loop (fun _ => "FAILED") "out.nc" (6 + 1) 0 =
      (some none, 0, 0) :=
  error_status_classification.2 (fun _ => "FAILED") "out.nc" 6 0 (by decide)

/-- C4 counterexample: the status string `CANCELLED` is not in the loop's
failure list; it is classified as unhandled, the loop never reaches the
`Error` return on it and keeps polling, so `cancelled` does not map to the
terminal `Error` state as the claim says. -/
theorem cancelled_status_cex :
    classify_status "CANCELLED" ≠ JobState.error ∧
    classify_status "CANCELLED" = JobState.unhandled ∧
    fetch_product_loop (fun _ => "CANCELLED") "out.nc" 3 0 = (none, 0, 0) :=
  ⟨by decide, by decide, by decide⟩

/-- C5: for a single job whose polled status sequence is queued, running,
done, the loop returns the path of the saved output file and performs
exactly one file write (and two sleeps); for the sequence queued, error it
returns `None` and performs zero file writes. -/
theorem fetch_product_status_scripts :
    fetch_product_loop (status_of_list ["QUEUED", "RUNNING", "DONE"])
        "out.nc" 3 0 = (some (some "out.nc"), 1, 2) ∧
    fetch_product_loop (status_of_list ["QUEUED", "ERROR"]) "out.nc" 2 0 =
      (some none, 0, 1) :=
  ⟨by decide, by decide⟩

/-- C6: `fetch_products` performs the per-item fetch exactly once per item,
strictly sequentially in the input order: the result has exactly one entry
per item, the entry at each position is the fetch of the item at that
position (so a failed item contributes its `None` at its own position),
and the batch around any one item is processed regardless of that item's
outcome. -/
theorem fetch_products_sequential :
    ∀ (ι : Type) (status : ι → ℕ → String) (out : ι → String)
      (fuel : ι → ℕ) (items : List ι),
      (fetch_products status out fuel items).length = items.length ∧
      (∀ i : ℕ, (fetch_products status out fuel items)[i]? =
        items[i]?.map
          (fun p => (fetch_product_loop (status p) (out p) (fuel p) 0).1)) ∧
      (∀ (pre post : List ι) (p : ι), items = pre ++ p :: post →
        fetch_products status out fuel items =
          fetch_products status out fuel pre ++
            (fetch_product_loop (status p) (out p) (fuel p) 0).1 ::
              fetch_products status out fuel post) := by
  intro ι status out fuel items
  refine ⟨by simp [fetch_products], ?_, ?_⟩
  · intro i
    simp [fetch_products, List.getElem?_map]
  · intro pre post p h
    subst h
    simp [fetch_products]

/-- Witness for the sequential-batch theorem at a concrete input. -/
theorem fetch_products_sequential_witness :
    fetch_products status_done out_name one_fuel [0, 1] =
      fetch_products status_done out_name one_fuel [0] ++
        (fetch_product_loop (status_done 1) (out_name 1) (one_fuel 1) 0).1 ::
          fetch_products status_done out_name one_fuel [] :=
  (fetch_products_sequential ℕ status_done out_name one_fuel [0, 1]).2.2
    [0] [] 1 rfl

/-- C7: for the time-window batcher, `start = end` produces zero windows
and no error, while `start > end` fails with `InvalidRangeError` and no
window is produced. -/
theorem query_range_edge_cases :
    (∀ s w : ℕ, query_in_batches s s w = .ok [])
    ∧ (∀ s e w : ℕ, e < s →
        query_in_batches s e w = .error .invalidRange) := by
  constructor
  · intro s w
    simp [query_in_batches, tile_windows, tile_go, Nat.sub_self]
  · intro s e w h
    simp [query_in_batches, h]

/-- Witness for the range-edge theorem at a concrete input. -/
theorem query_range_edge_cases_witness :
    query_in_batches 5 3 2 = .error .invalidRange :=
  query_range_edge_cases.2 5 3 2 (by decide)

/-- C10: the loop of `fetch_product` exits only if some polled status is
handled terminally — classified done (contains DONE) or error (one of the
five failure strings); a status outside the classification table (not
containing DONE, not in the failure list, not QUEUED or RUNNING) is
unhandled, and on a stream of forever-unhandled statuses the loop never
terminates, performing zero writes and zero sleeps (it re-polls without
sleeping between iterations). -/
theorem fetch_loop_termination :
    (∀ s : String, classify_status s = .unhandled ↔
      (str_contains "DONE" s = false ∧ s ∉ error_statuses ∧
        s ∉ wait_statuses))
    ∧ (∀ (status : ℕ → String) (out : String) (fuel i : ℕ)
        (r : Option String) (w sl : ℕ),
        fetch_product_loop status out fuel i = (some r, w, sl) →
        ∃ j, i ≤ j ∧ j < i + fuel ∧
          (classify_status (status j) = .done ∨
            classify_status (status j) = .error))
    ∧ (∀ (status : ℕ → String) (out : String),
        (∀ j, classify_status (status j) = .unhandled) →
        ∀ fuel i, fetch_product_loop status out fuel i = (none, 0, 0)) := by
  refine ⟨?_, ?_, ?_⟩
  · intro s
    rw [classify_status]
    split_ifs with h1 h2 h3 <;> simp_all
  · intro status out fuel
    induction fuel with
    | zero =>
      intro i r w sl h
      simp [fetch_product_loop] at h
    | succ n ih =>
      intro i r w sl h
      rw [fetch_product_loop] at h
      cases hc : classify_status (status i) with
      | done => exact ⟨i, le_refl i, by omega, Or.inl hc⟩
      | error => exact ⟨i, le_refl i, by omega, Or.inr hc⟩
      | wait =>
        rw [hc] at h
        rcases he : fetch_product_loop status out n (i + 1) with ⟨r2, wsl⟩
        rcases wsl with ⟨w2, sl2⟩
        rw [he] at h
        simp only [Prod.mk.injEq] at h
        obtain ⟨hr2, hw2, hsl2⟩ := h
        obtain ⟨j, hj1, hj2, hj3⟩ := ih (i + 1) r w2 sl2 (by rw [he, hr2, hw2])
        exact ⟨j, by omega, by omega, hj3⟩
      | unhandled =>
        rw [hc] at h
        obtain ⟨j, hj1, hj2, hj3⟩ := ih (i + 1) r w sl h
        exact ⟨j, by omega, by omega, hj3⟩
  · intro status out h fuel
    induction fuel with
    | zero => intro i; rfl
    | succ n ih =>
      intro i
      rw [fetch_product_loop, h i]
      exact ih (i + 1)

/-- Witness for the termination theorem: on a stream of a status outside
the classification table, the loop is still running after four iterations
with zero writes and zero sleeps. -/
theorem fetch_loop_termination_witness :
    fetch_product_loop (fun _ => "FOO") "out.nc" 4 0 = (none, 0, 0) :=
  fetch_loop_termination.2.2 (fun _ => "FOO") "out.nc"
    (fun _ => show classify_status "FOO" = .unhandled by decide) 4 0

end MonkeyWrench
